import Mathlib

/-!
# HTTP transport adapter of the CRUD micro-service template

A shallow embedding of `transports/http.go`: the status mapping `err2code`, the two
encoders, the five request decoders and the routing table built by `NewHTTPHandler`,
together with the library routines they call (`uuid.Parse`, `UUID.String`, the value
scanner behind `json.Decoder.Decode`, `endpoint.Chain`).

Conventions.
* A Go `string` or byte slice is a list of byte values (`Bytes`), so that `len` and
  indexing are byte-wise as in Go.
* A Go function returning `(value, error)` with exactly one of the two set is an `Except`.
* A Go panic is the `Except.error` of an `Except Panic _`.
* An `http.ResponseWriter` is the list of calls made on it so far.
-/

set_option autoImplicit false
set_option linter.dupNamespace false

/-- A Go string / byte slice: the list of its bytes. -/
abbrev Bytes := List Nat

/-- The bytes of an ASCII literal. -/
def ascii (s : String) : Bytes := s.toList.map Char.toNat

/-! ## Package `common`: the classified error -/

namespace common

/-- Modelled from the spec: the declaration of the error keys (package `common`) is not
among the sources; the spec lists the keys InvalidRequestBody, InvalidID, Unauthorized,
Internal and leaves the enumeration open, which `Other` stands for. -/
inductive ErrorKey
  | InvalidRequestBody
  | InvalidID
  | Unauthorized
  | Internal
  | Other (tag : Nat)
  deriving DecidableEq, Repr

/-- Modelled from the spec: the classified error of package `common`, a key and a
message. A value of this type is the pointee of a non-nil `*common.Error`. -/
structure Error where
  Key : ErrorKey
  Msg : String
  deriving DecidableEq, Repr

/-- Modelled from the spec: `common.NewError(key, msg)`; constructing a classified error
never fails. -/
def NewError (key : ErrorKey) (msg : String) : Error := ⟨key, msg⟩

/-- Modelled from the spec: the error capability of a classified error produces its
message. -/
def Error.Error (e : Error) : String := e.Msg

end common

/-! ## Go runtime notions used by the adapter -/

/-- The run-time panics the adapter can raise. -/
inductive Panic
  | typeAssertion
  | nilDereference
  deriving DecidableEq, Repr

/-- A non-nil value of the Go interface `error`, by dynamic type. -/
inductive GoError
  /-- dynamic type `*common.Error`, pointer not nil -/
  | classified (e : common.Error)
  /-- dynamic type `*common.Error`, pointer nil -/
  | nilClassified
  /-- any other dynamic type; `msg` is what its `Error()` returns -/
  | other (msg : String)
  deriving DecidableEq, Repr

/-- The single-value type assertion `err.(*common.Error)`: the pointer held by the
interface value, or a panic when the dynamic type differs. -/
def GoError.assertError : GoError → Except Panic (Option common.Error)
  | .classified e => .ok (some e)
  | .nilClassified => .ok none
  | .other _ => .error Panic.typeAssertion

/-- Dereferencing a `*common.Error`. -/
def deref (p : Option common.Error) : Except Panic common.Error :=
  match p with
  | some e => .ok e
  | none => .error Panic.nilDereference

namespace http

def StatusOK : Nat := 200
def StatusBadRequest : Nat := 400
def StatusUnauthorized : Nat := 401
def StatusInternalServerError : Nat := 500

def MethodGet : String := "GET"
def MethodPost : String := "POST"
def MethodPut : String := "PUT"
def MethodDelete : String := "DELETE"

/-- What `json.NewEncoder(w).Encode` is asked to serialize: the error wrapper of
`http.go` or a response value. -/
inductive Doc (ρ : Type)
  | errorWrapper (Error : String)
  | response (r : ρ)
  deriving DecidableEq, Repr

/-- One call on an `http.ResponseWriter`. `Write d` records that the JSON encoding of `d`
(followed by a newline) was written to the body. -/
inductive Call (ρ : Type)
  | WriteHeader (code : Nat)
  | HeaderSet (key value : String)
  | Write (d : Doc ρ)
  deriving DecidableEq, Repr

/-- An `http.ResponseWriter`, as the calls made on it so far, oldest first. -/
abbrev ResponseWriter (ρ : Type) := List (Call ρ)

/-- The status line `net/http` sends: the code of the first `WriteHeader`, unless a body
write (or nothing at all) comes first, in which case 200. -/
def status {ρ : Type} : ResponseWriter ρ → Nat
  | [] => StatusOK
  | Call.WriteHeader c :: _ => c
  | Call.Write _ :: _ => StatusOK
  | Call.HeaderSet _ _ :: w => status w

/-- The value of header `key` after the recorded calls (`Header().Set` replaces). -/
def header {ρ : Type} (key : String) : ResponseWriter ρ → Option String
  | [] => none
  | Call.HeaderSet k v :: w =>
    match header key w with
    | some v2 => some v2
    | none => if k = key then some v else none
  | _ :: w => header key w

/-- The documents written to the body, in order. -/
def body {ρ : Type} : ResponseWriter ρ → List (Doc ρ)
  | [] => []
  | Call.Write d :: w => d :: body w
  | _ :: w => body w

end http

/-! ## Package `github.com/google/uuid`: parsing and printing identifiers -/

namespace uuid

/-- A `uuid.UUID`, the `[16]byte` array as the list of its bytes. -/
abbrev UUID := Bytes

/-- The values a `[16]byte` can take: sixteen entries, each a byte. -/
def UUID.wf (u : UUID) : Prop := u.length = 16 ∧ ∀ b ∈ u, b < 256

instance (u : UUID) : Decidable u.wf := by
  unfold UUID.wf
  infer_instance

/-- The table `xvalues`: the value of a hexadecimal digit (either case), 255 for any
other byte. -/
def xvalues (c : Nat) : Nat :=
  if 48 ≤ c ∧ c ≤ 57 then c - 48
  else if 65 ≤ c ∧ c ≤ 70 then c - 55
  else if 97 ≤ c ∧ c ≤ 102 then c - 87
  else 255

/-- The helper `xtob`: two hex digits to a byte, and whether both were hex digits. -/
def xtob (x1 x2 : Nat) : Nat × Bool :=
  let b1 := xvalues x1
  let b2 := xvalues x2
  (((b1 <<< 4) % 256) ||| b2, b1 != 255 && b2 != 255)

/-- ASCII lower-casing of one byte. -/
def lowerByte (b : Nat) : Nat := if 65 ≤ b ∧ b ≤ 90 then b + 32 else b

/-- The text `urn:uuid:`. -/
def urn : Bytes := [117, 114, 110, 58, 117, 117, 105, 100, 58]

/-- The positions of the sixteen digit pairs in the hyphenated form. -/
def offsets : List Nat := [0, 2, 4, 6, 9, 11, 14, 16, 19, 21, 24, 26, 28, 30, 32, 34]

/-- One round of the digit loops of `Parse`: the byte at positions `x`, `x+1` of `s`. -/
def pair (s : Bytes) (x : Nat) : Option Nat :=
  match xtob (s.getD x 0) (s.getD (x + 1) 0) with
  | (v, true) => some v
  | (_, false) => none

/-- The tail of `Parse`, after the switch on the length: `s` must have the form
xxxxxxxx-xxxx-xxxx-xxxx-xxxxxxxxxxxx (45 is the hyphen). -/
def parseHyphenated (s : Bytes) : Option UUID :=
  if s.getD 8 0 ≠ 45 ∨ s.getD 13 0 ≠ 45 ∨ s.getD 18 0 ≠ 45 ∨ s.getD 23 0 ≠ 45 then none
  else offsets.mapM (pair s)

/-- The function `uuid.Parse`; `none` stands for a non-nil error. It accepts the
hyphenated form (36 bytes), the same after `urn:uuid:` in any case (45 bytes), the same
between two further bytes (38 bytes), and 32 bare hex digits. -/
def Parse (s : Bytes) : Option UUID :=
  if s.length = 36 then parseHyphenated s
  else if s.length = 36 + 9 then
    if (s.take 9).map lowerByte ≠ urn then none else parseHyphenated (s.drop 9)
  else if s.length = 36 + 2 then parseHyphenated (s.drop 1)
  else if s.length = 32 then (List.range 16).mapM fun i => pair s (i * 2)
  else none

/-- The digits `0123456789abcdef` used by `hex.Encode`. -/
def hextable : Bytes :=
  [48, 49, 50, 51, 52, 53, 54, 55, 56, 57, 97, 98, 99, 100, 101, 102]

/-- The routine `hex.Encode`: two lower-case digits per byte. -/
def hexEncode : Bytes → Bytes
  | [] => []
  | v :: src => hextable.getD (v >>> 4) 0 :: hextable.getD (v &&& 15) 0 :: hexEncode src

/-- The method `UUID.String` (through `encodeHex`): the canonical text encoding
xxxxxxxx-xxxx-xxxx-xxxx-xxxxxxxxxxxx in lower case. -/
def UUID.String (u : UUID) : Bytes :=
  hexEncode (u.take 4) ++ 45 :: hexEncode ((u.drop 4).take 2) ++ 45 ::
    hexEncode ((u.drop 6).take 2) ++ 45 :: hexEncode ((u.drop 8).take 2) ++ 45 ::
    hexEncode (u.drop 10)

/-- A text is canonical when it is the text encoding of some identifier. -/
def canonical (s : Bytes) : Prop := ∃ u : UUID, u.wf ∧ u.String = s

end uuid

/-! ## Package `encoding/json`: the value scanner and `Decoder.Decode` -/

namespace json

/-- The result codes of a scanner step. -/
inductive ScanCode
  | scanContinue
  | scanBeginLiteral
  | scanBeginObject
  | scanObjectKey
  | scanObjectValue
  | scanEndObject
  | scanBeginArray
  | scanArrayValue
  | scanEndArray
  | scanSkipSpace
  | scanEnd
  | scanError
  deriving DecidableEq, Repr

/-- The entries of the scanner's parse stack. -/
inductive ParseState
  | parseObjectKey
  | parseObjectValue
  | parseArrayValue
  deriving DecidableEq, Repr

/-- The state functions a scanner's `step` field can hold. -/
inductive Step
  | stateBeginValueOrEmpty
  | stateBeginValue
  | stateBeginStringOrEmpty
  | stateBeginString
  | stateEndValue
  | stateEndTop
  | stateInString
  | stateInStringEsc
  | stateInStringEscU
  | stateInStringEscU1
  | stateInStringEscU12
  | stateInStringEscU123
  | stateNeg
  | state1
  | state0
  | stateDot
  | stateDot0
  | stateE
  | stateESign
  | stateE0
  | stateT
  | stateTr
  | stateTru
  | stateF
  | stateFa
  | stateFal
  | stateFals
  | stateN
  | stateNu
  | stateNul
  | stateError
  deriving DecidableEq, Repr

/-- The scanner of scanner.go. The parse stack is kept innermost entry first; `err` holds
the context of the error message; the byte counter, used for error offsets only, is left
out. -/
structure scanner where
  step : Step
  endTop : Bool
  parseState : List ParseState
  err : Option String
  deriving DecidableEq, Repr

open ScanCode ParseState

def maxNestingDepth : Nat := 10000

/-- The scanner after `reset`. -/
def scanner.reset : scanner :=
  { step := Step.stateBeginValue, endTop := false, parseState := [], err := none }

/-- The method `error`: records the error and stops the scanner. -/
def scanner.error (s : scanner) (context : String) : ScanCode × scanner :=
  (scanError, { s with step := Step.stateError, err := some context })

def scanner.pushParseState (s : scanner) (newParseState : ParseState)
    (successState : ScanCode) : ScanCode × scanner :=
  let s1 := { s with parseState := newParseState :: s.parseState }
  if s1.parseState.length ≤ maxNestingDepth then (successState, s1)
  else s1.error "exceeded max depth"

def scanner.popParseState (s : scanner) : scanner :=
  let s1 := { s with parseState := s.parseState.tail }
  if s1.parseState.length = 0 then { s1 with step := Step.stateEndTop, endTop := true }
  else { s1 with step := Step.stateEndValue }

/-- Space, tab, carriage return, line feed. -/
def isSpace (c : Nat) : Bool := c ≤ 32 && (c = 32 || c = 9 || c = 13 || c = 10)

def isDigit (c : Nat) : Bool := 48 ≤ c && c ≤ 57

def isDigit19 (c : Nat) : Bool := 49 ≤ c && c ≤ 57

def isHex (c : Nat) : Bool :=
  48 ≤ c && c ≤ 57 || 97 ≤ c && c ≤ 102 || 65 ≤ c && c ≤ 70

def stateEndTop (s : scanner) (c : Nat) : ScanCode × scanner :=
  if !isSpace c then (scanEnd, (s.error "after top-level value").2)
  else (scanEnd, s)

/-- Replaces the innermost entry of the parse stack. -/
def scanner.setTop (s : scanner) (ps : ParseState) : scanner :=
  { s with parseState := ps :: s.parseState.tail }

def stateEndValue (s : scanner) (c : Nat) : ScanCode × scanner :=
  match s.parseState with
  | [] => stateEndTop { s with step := Step.stateEndTop, endTop := true } c
  | ps :: _ =>
    if isSpace c then (scanSkipSpace, { s with step := Step.stateEndValue })
    else
      match ps with
      | parseObjectKey =>
        if c = 58 then
          (scanObjectKey, { s.setTop parseObjectValue with step := Step.stateBeginValue })
        else s.error "after object key"
      | parseObjectValue =>
        if c = 44 then
          (scanObjectValue, { s.setTop parseObjectKey with step := Step.stateBeginString })
        else if c = 125 then (scanEndObject, s.popParseState)
        else s.error "after object key:value pair"
      | parseArrayValue =>
        if c = 44 then (scanArrayValue, { s with step := Step.stateBeginValue })
        else if c = 93 then (scanEndArray, s.popParseState)
        else s.error "after array element"

def stateBeginValue (s : scanner) (c : Nat) : ScanCode × scanner :=
  if isSpace c then (scanSkipSpace, s)
  else if c = 123 then
    { s with step := Step.stateBeginStringOrEmpty }.pushParseState parseObjectKey
      scanBeginObject
  else if c = 91 then
    { s with step := Step.stateBeginValueOrEmpty }.pushParseState parseArrayValue
      scanBeginArray
  else if c = 34 then (scanBeginLiteral, { s with step := Step.stateInString })
  else if c = 45 then (scanBeginLiteral, { s with step := Step.stateNeg })
  else if c = 48 then (scanBeginLiteral, { s with step := Step.state0 })
  else if c = 116 then (scanBeginLiteral, { s with step := Step.stateT })
  else if c = 102 then (scanBeginLiteral, { s with step := Step.stateF })
  else if c = 110 then (scanBeginLiteral, { s with step := Step.stateN })
  else if isDigit19 c then (scanBeginLiteral, { s with step := Step.state1 })
  else s.error "looking for beginning of value"

def stateBeginValueOrEmpty (s : scanner) (c : Nat) : ScanCode × scanner :=
  if isSpace c then (scanSkipSpace, s)
  else if c = 93 then stateEndValue s c
  else stateBeginValue s c

def stateBeginString (s : scanner) (c : Nat) : ScanCode × scanner :=
  if isSpace c then (scanSkipSpace, s)
  else if c = 34 then (scanBeginLiteral, { s with step := Step.stateInString })
  else s.error "looking for beginning of object key string"

def stateBeginStringOrEmpty (s : scanner) (c : Nat) : ScanCode × scanner :=
  if isSpace c then (scanSkipSpace, s)
  else if c = 125 then stateEndValue (s.setTop parseObjectValue) c
  else stateBeginString s c

def stateInString (s : scanner) (c : Nat) : ScanCode × scanner :=
  if c = 34 then (scanContinue, { s with step := Step.stateEndValue })
  else if c = 92 then (scanContinue, { s with step := Step.stateInStringEsc })
  else if c < 32 then s.error "in string literal"
  else (scanContinue, s)

def stateInStringEsc (s : scanner) (c : Nat) : ScanCode × scanner :=
  if c = 98 ∨ c = 102 ∨ c = 110 ∨ c = 114 ∨ c = 116 ∨ c = 92 ∨ c = 47 ∨ c = 34 then
    (scanContinue, { s with step := Step.stateInString })
  else if c = 117 then (scanContinue, { s with step := Step.stateInStringEscU })
  else s.error "in string escape code"

/-- The four states after a backslash and `u`: a hex digit leads to `next`. -/
def stateHex (next : Step) (s : scanner) (c : Nat) : ScanCode × scanner :=
  if isHex c then (scanContinue, { s with step := next })
  else s.error "in \\u hexadecimal character escape"

def state0 (s : scanner) (c : Nat) : ScanCode × scanner :=
  if c = 46 then (scanContinue, { s with step := Step.stateDot })
  else if c = 101 ∨ c = 69 then (scanContinue, { s with step := Step.stateE })
  else stateEndValue s c

def state1 (s : scanner) (c : Nat) : ScanCode × scanner :=
  if isDigit c then (scanContinue, { s with step := Step.state1 })
  else state0 s c

def stateNeg (s : scanner) (c : Nat) : ScanCode × scanner :=
  if c = 48 then (scanContinue, { s with step := Step.state0 })
  else if isDigit19 c then (scanContinue, { s with step := Step.state1 })
  else s.error "in numeric literal"

def stateDot (s : scanner) (c : Nat) : ScanCode × scanner :=
  if isDigit c then (scanContinue, { s with step := Step.stateDot0 })
  else s.error "after decimal point in numeric literal"

def stateDot0 (s : scanner) (c : Nat) : ScanCode × scanner :=
  if isDigit c then (scanContinue, s)
  else if c = 101 ∨ c = 69 then (scanContinue, { s with step := Step.stateE })
  else stateEndValue s c

def stateESign (s : scanner) (c : Nat) : ScanCode × scanner :=
  if isDigit c then (scanContinue, { s with step := Step.stateE0 })
  else s.error "in exponent of numeric literal"

def stateE (s : scanner) (c : Nat) : ScanCode × scanner :=
  if c = 43 ∨ c = 45 then (scanContinue, { s with step := Step.stateESign })
  else stateESign s c

def stateE0 (s : scanner) (c : Nat) : ScanCode × scanner :=
  if isDigit c then (scanContinue, s)
  else stateEndValue s c

/-- The states inside the literals true, false and null: byte `want` leads to `next`. -/
def stateLit (want : Nat) (next : Step) (context : String) (s : scanner) (c : Nat) :
    ScanCode × scanner :=
  if c = want then (scanContinue, { s with step := next })
  else s.error context

/-- Calling the state function held in `s.step` on byte `c`. -/
def scanner.run (s : scanner) (c : Nat) : ScanCode × scanner :=
  match s.step with
  | Step.stateBeginValueOrEmpty => stateBeginValueOrEmpty s c
  | Step.stateBeginValue => stateBeginValue s c
  | Step.stateBeginStringOrEmpty => stateBeginStringOrEmpty s c
  | Step.stateBeginString => stateBeginString s c
  | Step.stateEndValue => stateEndValue s c
  | Step.stateEndTop => stateEndTop s c
  | Step.stateInString => stateInString s c
  | Step.stateInStringEsc => stateInStringEsc s c
  | Step.stateInStringEscU => stateHex Step.stateInStringEscU1 s c
  | Step.stateInStringEscU1 => stateHex Step.stateInStringEscU12 s c
  | Step.stateInStringEscU12 => stateHex Step.stateInStringEscU123 s c
  | Step.stateInStringEscU123 => stateHex Step.stateInString s c
  | Step.stateNeg => stateNeg s c
  | Step.state1 => state1 s c
  | Step.state0 => state0 s c
  | Step.stateDot => stateDot s c
  | Step.stateDot0 => stateDot0 s c
  | Step.stateE => stateE s c
  | Step.stateESign => stateESign s c
  | Step.stateE0 => stateE0 s c
  | Step.stateT => stateLit 114 Step.stateTr "in literal true (expecting r)" s c
  | Step.stateTr => stateLit 117 Step.stateTru "in literal true (expecting u)" s c
  | Step.stateTru => stateLit 101 Step.stateEndValue "in literal true (expecting e)" s c
  | Step.stateF => stateLit 97 Step.stateFa "in literal false (expecting a)" s c
  | Step.stateFa => stateLit 108 Step.stateFal "in literal false (expecting l)" s c
  | Step.stateFal => stateLit 115 Step.stateFals "in literal false (expecting s)" s c
  | Step.stateFals => stateLit 101 Step.stateEndValue "in literal false (expecting e)" s c
  | Step.stateN => stateLit 117 Step.stateNu "in literal null (expecting u)" s c
  | Step.stateNu => stateLit 108 Step.stateNul "in literal null (expecting l)" s c
  | Step.stateNul => stateLit 108 Step.stateEndValue "in literal null (expecting l)" s c
  | Step.stateError => (scanError, s)

/-- The method `eof`: the scanner is told that the input has ended. -/
def scanner.eof (s : scanner) : ScanCode × scanner :=
  if s.err.isSome then (scanError, s)
  else if s.endTop then (scanEnd, s)
  else
    let s1 := (s.run 32).2
    if s1.endTop then (scanEnd, s1)
    else if s1.err.isNone then
      (scanError, { s1 with err := some "unexpected end of JSON input" })
    else (scanError, s1)

/-- The loop of `checkValid` over the bytes of `data`, then `eof`. -/
def checkValidFrom (s : scanner) : Bytes → Option String
  | [] =>
    match s.eof with
    | (scanError, s1) => s1.err
    | _ => none
  | c :: data =>
    match s.run c with
    | (scanError, s1) => s1.err
    | (_, s1) => checkValidFrom s1 data

/-- The function `checkValid`: `none` when `data` is one well-formed JSON text. -/
def checkValid (data : Bytes) : Option String := checkValidFrom scanner.reset data

/-- The function `json.Valid`. -/
def Valid (data : Bytes) : Bool := (checkValid data).isNone

/-- Whether the buffer holds a byte that is not white space. -/
def nonSpace (b : Bytes) : Bool := b.any fun c => !isSpace c

/-- The loop of `Decoder.readValue` on a reader that yields `buf ++ rest` and then
`io.EOF`; `scanp` counts the bytes scanned so far. The result is the length of the first
value (leading white space included) or the error. -/
def readValueFrom (buf : Bytes) (s : scanner) : Bytes → Nat → Except GoError Nat
  | [], scanp =>
    if (s.run 32).1 = scanEnd then .ok scanp
    else if nonSpace buf then .error (GoError.other "unexpected EOF")
    else .error (GoError.other "EOF")
  | c :: rest, scanp =>
    match s.run c with
    | (scanEnd, _) => .ok scanp
    | (scanEndObject, s1) =>
      if (stateEndValue s1 32).1 = scanEnd then .ok (scanp + 1)
      else readValueFrom buf (stateEndValue s1 32).2 rest (scanp + 1)
    | (scanEndArray, s1) =>
      if (stateEndValue s1 32).1 = scanEnd then .ok (scanp + 1)
      else readValueFrom buf (stateEndValue s1 32).2 rest (scanp + 1)
    | (scanError, s1) => .error (GoError.other (s1.err.getD ""))
    | (_, s1) => readValueFrom buf s1 rest (scanp + 1)

/-- The method `Decoder.readValue` of a fresh decoder over a body. -/
def readValue (body : Bytes) : Except GoError Nat :=
  readValueFrom body scanner.reset body 0

/-- The call `json.NewDecoder(body).Decode(&req)` on a fresh decoder: the first value is
read off the stream, then handed to `unmarshal`, which stands for `d.unmarshal` at the
type of `req`. -/
def Decode {α : Type} (unmarshal : Bytes → Except GoError α) (body : Bytes) :
    Except GoError α :=
  match readValue body with
  | .error e => .error e
  | .ok n => unmarshal (body.take n)

end json

/-! ## `transports/http.go`: status mapping and encoders -/

namespace transport

open common http

/-- The `err2code` of http.go, on the pointee of its argument. -/
def err2code (err : Error) : Nat :=
  if err.Key = ErrorKey.InvalidRequestBody ∨ err.Key = ErrorKey.InvalidID then
    StatusBadRequest
  else if err.Key = ErrorKey.Unauthorized then
    StatusUnauthorized
  else
    StatusInternalServerError

/-- The `errorEncoder` of http.go. The argument of `WriteHeader` is evaluated first: the
type assertion, then the dereference inside `err2code`; only then is anything written. -/
def errorEncoder {ρ : Type} (err : GoError) (w : ResponseWriter ρ) :
    Except Panic (ResponseWriter ρ) := do
  let p ← err.assertError
  let e ← deref p
  let w1 := w ++ [Call.WriteHeader (err2code e)]
  pure (w1 ++ [Call.Write (Doc.errorWrapper e.Error)])

/-- A value passed as `response interface{}`: the value itself and, when its type
implements `endpoint.Failer`, what `Failed()` returns (`none` for a nil error). -/
structure Response (ρ : Type) where
  value : ρ
  failer : Option (Option GoError)
  deriving DecidableEq, Repr

/-- The call `json.NewEncoder(w).Encode(response)`: when the value cannot be serialized
(`jsonErr` gives the encoder's error) nothing is written and the error is returned. -/
def jsonEncode {ρ : Type} (jsonErr : ρ → Option GoError) (w : ResponseWriter ρ) (r : ρ) :
    ResponseWriter ρ × Option GoError :=
  match jsonErr r with
  | some e => (w, some e)
  | none => (w ++ [Call.Write (Doc.response r)], none)

/-- The `encodeHTTPGenericResponse` of http.go; the result is the writer afterwards and
the returned error. -/
def encodeHTTPGenericResponse {ρ : Type} (jsonErr : ρ → Option GoError)
    (w : ResponseWriter ρ) (response : Response ρ) :
    Except Panic (ResponseWriter ρ × Option GoError) :=
  match response.failer with
  | some (some failed) => do
    let w1 ← errorEncoder failed w
    pure (w1, none)
  | _ =>
    let w1 := w ++ [Call.HeaderSet "Content-Type" "application/json; charset=utf-8"]
    pure (jsonEncode jsonErr w1 response.value)

/-! ## `transports/http.go`: decoders of the identifier-carrying and empty requests -/

/-- The parts of an `*http.Request` within reach of the decoders: the path variables
`mux.Vars(r)`, the raw query string and the body. -/
structure Request where
  Vars : List (String × Bytes)
  RawQuery : Bytes
  Body : Bytes
  deriving DecidableEq, Repr

end transport

namespace types

open uuid

/-- Modelled from the spec: package `types` is not among the sources; a Get request
carries the identifier, the one field http.go sets. -/
structure GetRequest where
  ID : UUID
  deriving DecidableEq, Repr

/-- Modelled from the spec: a Delete request carries the identifier, the one field
http.go sets. -/
structure DeleteRequest where
  ID : UUID
  deriving DecidableEq, Repr

/-- Modelled from the spec: a List request carries no fields. -/
structure ListRequest where
  deriving DecidableEq, Repr

end types

namespace transport

open common http

/-- The `decodeHTTPDeleteRequest` of http.go. -/
def decodeHTTPDeleteRequest (r : Request) : Except Error types.DeleteRequest :=
  match r.Vars.lookup "id" with
  | none => .error (NewError ErrorKey.InvalidID "invalid id")
  | some idStr =>
    match uuid.Parse idStr with
    | none => .error (NewError ErrorKey.InvalidID "invalid id")
    | some id => .ok { ID := id }

/-- The `decodeHTTPListRequest` of http.go. -/
def decodeHTTPListRequest (_r : Request) : Except Error types.ListRequest :=
  let req : types.ListRequest := {}
  .ok req

/-- The `decodeHTTPGetRequest` of http.go. -/
def decodeHTTPGetRequest (r : Request) : Except Error types.GetRequest :=
  match r.Vars.lookup "id" with
  | none => .error (NewError ErrorKey.InvalidID "invalid id")
  | some idStr =>
    match uuid.Parse idStr with
    | none => .error (NewError ErrorKey.InvalidID "invalid id")
    | some id => .ok { ID := id }

end transport

/-! ## `transports/http.go`: decoders of the body-carrying requests -/

namespace transport

open common http

/-- The `decodeHTTPUpdateRequest` of http.go. The request type `types.UpdateRequest` is
not among the sources: it is the parameter `α`, and `unmarshal` is `d.unmarshal` at that
type. -/
def decodeHTTPUpdateRequest {α : Type} (unmarshal : Bytes → Except GoError α)
    (r : Request) : Except Error α :=
  match json.Decode unmarshal r.Body with
  | .error _ => .error (NewError ErrorKey.InvalidRequestBody "invalid request body")
  | .ok req => .ok req

/-- The `decodeHTTPCreateRequest` of http.go. The request type `types.CreateRequest` is
not among the sources: it is the parameter `α`, and `unmarshal` is `d.unmarshal` at that
type. -/
def decodeHTTPCreateRequest {α : Type} (unmarshal : Bytes → Except GoError α)
    (r : Request) : Except Error α :=
  match json.Decode unmarshal r.Body with
  | .error _ => .error (NewError ErrorKey.InvalidRequestBody "invalid request body")
  | .ok req => .ok req

end transport

/-! ## Package `github.com/go-kit/kit/endpoint` -/

namespace endpoint

/-- An `endpoint.Endpoint`: from a request (a value of `interface{}`, type `ι`) to a
response or an error. Whatever an endpoint does besides returning (calls it makes, records
it changes) is a change of the state `σ` it is run in. -/
abbrev Endpoint (σ ι ο : Type) := ι → σ → Except GoError ο × σ

/-- An `endpoint.Middleware`. -/
abbrev Middleware (σ ι ο : Type) := Endpoint σ ι ο → Endpoint σ ι ο

/-- The function `endpoint.Chain`: the loop wraps `next` in `others` from the last to the
first, then `outer` goes around the result. -/
def Chain {σ ι ο : Type} (outer : Middleware σ ι ο) (others : List (Middleware σ ι ο)) :
    Middleware σ ι ο :=
  fun next => outer (others.foldr (fun m nxt => m nxt) next)

end endpoint

/-! ## `transports/http.go`: the routing table -/

namespace endpoints

open endpoint

/-- The struct `endpoints.Endpoints`: one business endpoint per operation. -/
structure Endpoints (σ ι ο : Type) where
  Create : Endpoint σ ι ο
  Get : Endpoint σ ι ο
  List : Endpoint σ ι ο
  Update : Endpoint σ ι ο
  Delete : Endpoint σ ι ο

end endpoints

namespace middleware

open endpoint

/-- Package `middleware` is not among the sources: what its ten constructors return is
taken as given. -/
structure Middlewares (σ ι ο : Type) where
  ValidateCreateInput : Middleware σ ι ο
  ConformCreateInput : Middleware σ ι ο
  ValidateGetInput : Middleware σ ι ο
  ConformGetInput : Middleware σ ι ο
  ValidateListInput : Middleware σ ι ο
  ConformListInput : Middleware σ ι ο
  ValidateUpdateInput : Middleware σ ι ο
  ConformUpdateInput : Middleware σ ι ο
  ValidateDeleteInput : Middleware σ ι ο
  ConformDeleteInput : Middleware σ ι ο

end middleware

namespace httptransport

open endpoint

/-- The decode functions of http.go, as passed to `NewServer`. -/
inductive DecodeRequestFunc
  | decodeHTTPCreateRequest
  | decodeHTTPGetRequest
  | decodeHTTPListRequest
  | decodeHTTPUpdateRequest
  | decodeHTTPDeleteRequest
  deriving DecidableEq, Repr

/-- The encode functions a server can hold. -/
inductive EncodeResponseFunc
  | encodeHTTPGenericResponse
  deriving DecidableEq, Repr

/-- The error encoders a server can hold: the library default or the one of http.go. -/
inductive ErrorEncoder
  | DefaultErrorEncoder
  | errorEncoder
  deriving DecidableEq, Repr

/-- The fields of an `httptransport.Server` that `NewHTTPHandler` sets. -/
structure Server (σ ι ο : Type) where
  e : Endpoint σ ι ο
  dec : DecodeRequestFunc
  enc : EncodeResponseFunc
  errorEncoder : ErrorEncoder

/-- A `ServerOption`. -/
abbrev ServerOption (σ ι ο : Type) := Server σ ι ο → Server σ ι ο

/-- The option `ServerErrorEncoder(ee)`. -/
def ServerErrorEncoder {σ ι ο : Type} (ee : ErrorEncoder) : ServerOption σ ι ο :=
  fun s => { s with errorEncoder := ee }

/-- The constructor `NewServer`: the default error encoder, then the options in order. -/
def NewServer {σ ι ο : Type} (e : Endpoint σ ι ο) (dec : DecodeRequestFunc)
    (enc : EncodeResponseFunc) (options : List (ServerOption σ ι ο)) : Server σ ι ο :=
  options.foldl (fun s option => option s)
    { e := e, dec := dec, enc := enc, errorEncoder := ErrorEncoder.DefaultErrorEncoder }

end httptransport

namespace mux

/-- A route of a `mux.Router`: `Handle(path, handler).Methods(methods...)`. -/
structure Route (H : Type) where
  path : String
  methods : List String
  handler : H

/-- A router, as its routes in order of registration. -/
abbrev Router (H : Type) := List (Route H)

/-- The pair a route is registered under. -/
def Route.key {H : Type} (rt : Route H) : List String × String := (rt.methods, rt.path)

/-- The handler registered for a method and a path template: the first route, in order
of registration, with that template and that method. -/
def Router.handlerFor {H : Type} (m : Router H) (method path : String) : Option H :=
  (m.find? fun rt => rt.path = path && rt.methods.contains method).map fun rt => rt.handler

end mux

namespace transport

open endpoint endpoints middleware httptransport mux http

/-- The `NewHTTPHandler` of http.go; the middleware constructors of the missing package
come in through `mws`. -/
def NewHTTPHandler {σ ι ο : Type} (endpoints : Endpoints σ ι ο) (mws : Middlewares σ ι ο) :
    Router (Server σ ι ο) :=
  let commonOptions : List (ServerOption σ ι ο) :=
    [ServerErrorEncoder ErrorEncoder.errorEncoder]
  [ { path := "/api/model/v1"
      methods := [MethodPost]
      handler := NewServer
        (Chain mws.ValidateCreateInput [mws.ConformCreateInput] endpoints.Create)
        DecodeRequestFunc.decodeHTTPCreateRequest
        EncodeResponseFunc.encodeHTTPGenericResponse
        commonOptions },
    { path := "/api/model/v1/\x7bid\x7d"
      methods := [MethodGet]
      handler := NewServer
        (Chain mws.ValidateGetInput [mws.ConformGetInput] endpoints.Get)
        DecodeRequestFunc.decodeHTTPGetRequest
        EncodeResponseFunc.encodeHTTPGenericResponse
        commonOptions },
    { path := "/api/model/v1"
      methods := [MethodGet]
      handler := NewServer
        (Chain mws.ValidateListInput [mws.ConformListInput] endpoints.List)
        DecodeRequestFunc.decodeHTTPListRequest
        EncodeResponseFunc.encodeHTTPGenericResponse
        commonOptions },
    { path := "/api/model/v1"
      methods := [MethodPut]
      handler := NewServer
        (Chain mws.ValidateUpdateInput [mws.ConformUpdateInput] endpoints.Update)
        DecodeRequestFunc.decodeHTTPUpdateRequest
        EncodeResponseFunc.encodeHTTPGenericResponse
        commonOptions },
    { path := "/api/model/v1/\x7bid\x7d"
      methods := [MethodDelete]
      handler := NewServer
        (Chain mws.ValidateDeleteInput [mws.ConformDeleteInput] endpoints.Delete)
        DecodeRequestFunc.decodeHTTPDeleteRequest
        EncodeResponseFunc.encodeHTTPGenericResponse
        commonOptions } ]

end transport

/-! ## Auxiliary definitions for the statements and proofs -/

namespace types

/-- Modelled from the spec: a Create request carries the model payload. The fields of
`types.CreateRequest` are not among the sources; the payload is kept as the text of the
JSON value the request was populated from. -/
structure CreateRequest where
  payload : Bytes
  deriving DecidableEq, Repr

/-- Modelled from the spec: an Update request carries the model payload (identifier
included), kept as the text of the JSON value the request was populated from. -/
structure UpdateRequest where
  payload : Bytes
  deriving DecidableEq, Repr

end types

namespace json

/-- Modelled from the spec: the step `d.unmarshal` into a request struct whose fields are
not known, as far as the kind of the top-level value decides it: an object populates the
struct, `null` leaves it at its zero value, an array, string, number or boolean is a type
error. What a member of an object does to a field is outside this model; the member-less
object populates no field. -/
def unmarshalStruct (v : Bytes) : Except GoError Bytes :=
  match v.dropWhile isSpace with
  | c :: _ =>
    if c = 123 then .ok v
    else if c = 110 then .ok []
    else .error (GoError.other "json: cannot unmarshal value into Go struct")
  | [] => .error (GoError.other "unexpected end of JSON input")

end json

namespace types

/-- The unmarshal step at `types.CreateRequest`. -/
def unmarshalCreate (v : Bytes) : Except GoError CreateRequest :=
  (json.unmarshalStruct v).map CreateRequest.mk

/-- The unmarshal step at `types.UpdateRequest`. -/
def unmarshalUpdate (v : Bytes) : Except GoError UpdateRequest :=
  (json.unmarshalStruct v).map UpdateRequest.mk

end types

namespace transport

open endpoint endpoints middleware httptransport mux http

/-- What a route is registered under and what it is wired to, the endpoint apart. -/
def wiring {σ ι ο : Type} (rt : Route (Server σ ι ο)) :
    List String × String × DecodeRequestFunc × EncodeResponseFunc × ErrorEncoder :=
  (rt.methods, rt.path, rt.handler.dec, rt.handler.enc, rt.handler.errorEncoder)

/-- A validation stage that rejects request 0 and passes every other request on; it
records its call in the log. -/
def validateSpy : Middleware (List String) Nat Nat :=
  fun next request log =>
    if request = 0 then
      (Except.error (GoError.classified ⟨common.ErrorKey.InvalidRequestBody, "invalid"⟩),
        log ++ ["validate"])
    else next request (log ++ ["validate"])

/-- A conformance stage that rejects request 1 and passes every other request on; it
records its call in the log. -/
def conformSpy : Middleware (List String) Nat Nat :=
  fun next request log =>
    if request = 1 then
      (Except.error (GoError.classified ⟨common.ErrorKey.InvalidRequestBody, "odd"⟩),
        log ++ ["conform"])
    else next request (log ++ ["conform"])

/-- A business endpoint that records its call in the log. -/
def businessSpy : Endpoint (List String) Nat Nat :=
  fun request log => (Except.ok request, log ++ ["business"])

end transport

namespace json

open ScanCode ParseState

/-- What holds of a scanner while a value is being read and no error has occurred. -/
def scanner.Inv (s : scanner) : Prop :=
  (s.step = Step.stateEndTop → s.endTop = true) ∧
  (s.step = Step.stateBeginValueOrEmpty → s.parseState ≠ []) ∧
  s.err = none

/-- The codes that neither end the top-level value nor close an object or array. -/
def ScanCode.plain (c : ScanCode) : Bool :=
  c != scanEnd && c != scanEndObject && c != scanEndArray

/-- What the proofs below need of one step `f s c = out` from a scanner in `Inv`. -/
def Good (f : scanner → Nat → ScanCode × scanner) (s : scanner)
    (out : ScanCode × scanner) : Prop :=
  (out.1 ≠ scanError → out.1 ≠ scanEnd → out.2.Inv) ∧
  (out.1 = scanEnd → (f s 32).1 = scanEnd ∧ (f s 32).2.endTop = true) ∧
  (out.1 = scanEndObject ∨ out.1 = scanEndArray → ∃ s1 : scanner, out.2 = s1.popParseState)

/-- A state function that never ends a value or closes a bracket, and keeps `Inv`. -/
def Plainly (f : scanner → Nat → ScanCode × scanner) : Prop :=
  ∀ s c out, s.Inv → f s c = out → out.1.plain = true ∧ (out.1 ≠ scanError → out.2.Inv)

/-- A number state: a step from it is plain, or it is the step of `stateEndValue`. -/
def Falls (f : scanner → Nat → ScanCode × scanner) : Prop :=
  ∀ s c out, s.Inv → f s c = out →
    (out.1.plain = true ∧ (out.1 ≠ scanError → out.2.Inv)) ∨ stateEndValue s c = out

end json

/-! ## Facts about the response writer -/

namespace http

theorem header_append_set {ρ : Type} (key value : String) (w v : ResponseWriter ρ)
    (hv : header key v = none) :
    header key (w ++ Call.HeaderSet key value :: v) = some value := by
  induction w with
  | nil => simp [header, hv]
  | cons c w ih => cases c <;> simp [header, ih]

end http

/-! ## The status mapping and the encoders -/

namespace transport

open common http

/-- C1: `err2code` is defined on every classified error and is read off the key alone:
400 for InvalidRequestBody and for InvalidID, 401 for Unauthorized, 500 for every other
key; two errors with the same key and different messages get the same code. -/
theorem err2code_by_key :
    (∀ e : Error, err2code e =
      match e.Key with
      | ErrorKey.InvalidRequestBody => 400
      | ErrorKey.InvalidID => 400
      | ErrorKey.Unauthorized => 401
      | ErrorKey.Internal => 500
      | ErrorKey.Other _ => 500) ∧
    ∀ (k : ErrorKey) (m1 m2 : String), err2code ⟨k, m1⟩ = err2code ⟨k, m2⟩ := by
  refine ⟨?_, fun k m1 m2 => rfl⟩
  rintro ⟨k, m⟩
  cases k <;> simp [err2code, StatusBadRequest, StatusUnauthorized, StatusInternalServerError]

/-- C2: on an error whose dynamic type is not `*common.Error`, `errorEncoder` does not
return: the type assertion panics before any status or body is written, whatever the
message and the writer. -/
theorem errorEncoder_unclassified_panics {ρ : Type} (msg : String) (w : ResponseWriter ρ) :
    errorEncoder (GoError.other msg) w = Except.error Panic.typeAssertion := rfl

/-- C5: for a response whose `Failed()` returns the classified error `e`, the encoder
returns no error and appends exactly two calls to the writer: `WriteHeader (err2code e)`
and the body `errorWrapper` with the message of `e`. On a fresh writer the status is
`err2code e`, the body is that one document and no header is set; the response value is
not written. -/
theorem encode_failed_response {ρ : Type} (jsonErr : ρ → Option GoError)
    (w : ResponseWriter ρ) (value : ρ) (e : Error) :
    encodeHTTPGenericResponse jsonErr w ⟨value, some (some (GoError.classified e))⟩ =
      Except.ok (w ++ [Call.WriteHeader (err2code e), Call.Write (Doc.errorWrapper e.Msg)],
        none) ∧
    (encodeHTTPGenericResponse jsonErr [] ⟨value, some (some (GoError.classified e))⟩).map
        (fun out => (status out.1, body out.1, header "Content-Type" out.1)) =
      Except.ok (err2code e, [Doc.errorWrapper e.Msg], none) := by
  constructor
  · simp [encodeHTTPGenericResponse, errorEncoder, GoError.assertError, deref, Error.Error,
      bind, Except.bind, pure, Except.pure]
  · rfl

/-- C6: for a response that does not report failure (no `Failed` method, or `Failed()`
is nil) the encoder first sets Content-Type to `application/json; charset=utf-8`, never
calls `WriteHeader`, then writes the JSON serialization of the response value itself when
it has one (nothing otherwise) and returns the serializer's error; on a fresh writer the
status is 200 and no error wrapper is in the body. -/
theorem encode_plain_response {ρ : Type} (jsonErr : ρ → Option GoError)
    (w : ResponseWriter ρ) (response : Response ρ)
    (h : response.failer = none ∨ response.failer = some none) :
    ∃ w2 : ResponseWriter ρ,
      encodeHTTPGenericResponse jsonErr w response =
        Except.ok (w2, jsonErr response.value) ∧
      w2 = w ++ Call.HeaderSet "Content-Type" "application/json; charset=utf-8" ::
        (match jsonErr response.value with
         | none => [Call.Write (Doc.response response.value)]
         | some _ => []) ∧
      header "Content-Type" w2 = some "application/json; charset=utf-8" ∧
      (w = [] → status w2 = 200 ∧ ∀ m, Doc.errorWrapper m ∉ body w2) := by
  obtain ⟨value, failer⟩ := response
  have hw : ∀ v : ResponseWriter ρ,
      w ++ [Call.HeaderSet "Content-Type" "application/json; charset=utf-8"] ++ v =
        w ++ Call.HeaderSet "Content-Type" "application/json; charset=utf-8" :: v := by
    intro v; simp
  have key : encodeHTTPGenericResponse jsonErr w ⟨value, failer⟩ =
      Except.ok (w ++ Call.HeaderSet "Content-Type" "application/json; charset=utf-8" ::
        (match jsonErr value with
         | none => [Call.Write (Doc.response value)]
         | some _ => []), jsonErr value) := by
    rcases h with h | h <;> simp only at h <;> subst h <;>
      cases hj : jsonErr value <;>
      simp [encodeHTTPGenericResponse, jsonEncode, hj, pure, Except.pure]
  refine ⟨_, key, rfl, ?_, ?_⟩
  · apply header_append_set
    cases jsonErr value <;> rfl
  · rintro rfl
    cases jsonErr value <;> simp [status, body, StatusOK]

/-- The witness of C6: a response without a `Failed` method, on a fresh writer. -/
theorem encode_plain_response_witness :
    encodeHTTPGenericResponse (fun _ => none) ([] : ResponseWriter Nat) ⟨7, none⟩ =
      Except.ok ([Call.HeaderSet "Content-Type" "application/json; charset=utf-8",
        Call.Write (Doc.response 7)], none) := by
  obtain ⟨w2, h1, h2, _⟩ :=
    encode_plain_response (fun _ => none) ([] : ResponseWriter Nat) ⟨7, none⟩ (Or.inl rfl)
  rw [h1, h2]
  rfl

/-- C10: decoding a List request returns the same empty `ListRequest` and no error for
every incoming request, whatever its path variables, query string and body. -/
theorem decode_list_constant :
    ∀ r : Request, decodeHTTPListRequest r = Except.ok ({} : types.ListRequest) :=
  fun _ => rfl

end transport

/-! ## The routing table and the order of the stages -/

namespace transport

open endpoint endpoints middleware httptransport mux http

/-- C7: the table built by `NewHTTPHandler` has five routes, registered under pairwise
distinct (method, path template) pairs; POST /api/model/v1 is wired to the Create decoder
and endpoint, GET /api/model/v1/{id} to Get, GET /api/model/v1 to List, PUT /api/model/v1
to Update, DELETE /api/model/v1/{id} to Delete, looking a pair up finds that route, and
every route uses `encodeHTTPGenericResponse` and `errorEncoder`. -/
theorem routing_table {σ ι ο : Type} (eps : Endpoints σ ι ο) (mws : Middlewares σ ι ο) :
    (NewHTTPHandler eps mws).length = 5 ∧
    ((NewHTTPHandler eps mws).map Route.key).Nodup ∧
    (NewHTTPHandler eps mws).map wiring =
      [ (["POST"], "/api/model/v1", DecodeRequestFunc.decodeHTTPCreateRequest,
          EncodeResponseFunc.encodeHTTPGenericResponse, ErrorEncoder.errorEncoder),
        (["GET"], "/api/model/v1/\x7bid\x7d", DecodeRequestFunc.decodeHTTPGetRequest,
          EncodeResponseFunc.encodeHTTPGenericResponse, ErrorEncoder.errorEncoder),
        (["GET"], "/api/model/v1", DecodeRequestFunc.decodeHTTPListRequest,
          EncodeResponseFunc.encodeHTTPGenericResponse, ErrorEncoder.errorEncoder),
        (["PUT"], "/api/model/v1", DecodeRequestFunc.decodeHTTPUpdateRequest,
          EncodeResponseFunc.encodeHTTPGenericResponse, ErrorEncoder.errorEncoder),
        (["DELETE"], "/api/model/v1/\x7bid\x7d", DecodeRequestFunc.decodeHTTPDeleteRequest,
          EncodeResponseFunc.encodeHTTPGenericResponse, ErrorEncoder.errorEncoder) ] ∧
    (((NewHTTPHandler eps mws).handlerFor "POST" "/api/model/v1").map fun h => (h.e, h.dec)) =
      some (Chain mws.ValidateCreateInput [mws.ConformCreateInput] eps.Create,
        DecodeRequestFunc.decodeHTTPCreateRequest) ∧
    (((NewHTTPHandler eps mws).handlerFor "GET" "/api/model/v1/\x7bid\x7d").map
        fun h => (h.e, h.dec)) =
      some (Chain mws.ValidateGetInput [mws.ConformGetInput] eps.Get,
        DecodeRequestFunc.decodeHTTPGetRequest) ∧
    (((NewHTTPHandler eps mws).handlerFor "GET" "/api/model/v1").map fun h => (h.e, h.dec)) =
      some (Chain mws.ValidateListInput [mws.ConformListInput] eps.List,
        DecodeRequestFunc.decodeHTTPListRequest) ∧
    (((NewHTTPHandler eps mws).handlerFor "PUT" "/api/model/v1").map fun h => (h.e, h.dec)) =
      some (Chain mws.ValidateUpdateInput [mws.ConformUpdateInput] eps.Update,
        DecodeRequestFunc.decodeHTTPUpdateRequest) ∧
    (((NewHTTPHandler eps mws).handlerFor "DELETE" "/api/model/v1/\x7bid\x7d").map
        fun h => (h.e, h.dec)) =
      some (Chain mws.ValidateDeleteInput [mws.ConformDeleteInput] eps.Delete,
        DecodeRequestFunc.decodeHTTPDeleteRequest) := by
  refine ⟨rfl, ?_, rfl, ?_, ?_, ?_, ?_, ?_⟩
  · have : (NewHTTPHandler eps mws).map Route.key =
        [(["POST"], "/api/model/v1"), (["GET"], "/api/model/v1/\x7bid\x7d"),
          (["GET"], "/api/model/v1"), (["PUT"], "/api/model/v1"),
          (["DELETE"], "/api/model/v1/\x7bid\x7d")] := rfl
    rw [this]
    decide
  all_goals
    simp [NewHTTPHandler, Router.handlerFor, List.find?, MethodPost, MethodGet, MethodPut,
      MethodDelete, NewServer, ServerErrorEncoder]

/-- C8: each of the five installed endpoints is Validate(Conform(business)) of its
operation; for all stages, `Chain V [C] B` is `V (C B)`; when `V` at a request returns
an error whatever its next stage is, the installed pipeline returns that very outcome
whatever the conformance and business stages are; and when `V` hands the request on and
`C` returns an error whatever its next stage is, the pipeline returns that outcome
whatever the business endpoint is. -/
theorem pipeline_order {σ ι ο : Type} (eps : Endpoints σ ι ο) (mws : Middlewares σ ι ο) :
    (NewHTTPHandler eps mws).map (fun rt => rt.handler.e) =
      [ mws.ValidateCreateInput (mws.ConformCreateInput eps.Create),
        mws.ValidateGetInput (mws.ConformGetInput eps.Get),
        mws.ValidateListInput (mws.ConformListInput eps.List),
        mws.ValidateUpdateInput (mws.ConformUpdateInput eps.Update),
        mws.ValidateDeleteInput (mws.ConformDeleteInput eps.Delete) ] ∧
    ∀ (V C : Middleware σ ι ο) (B : Endpoint σ ι ο) (r : ι) (s : σ),
      Chain V [C] B = V (C B) ∧
      (∀ (err : GoError) (s1 : σ), (∀ next, V next r s = (Except.error err, s1)) →
        ∀ (C2 : Middleware σ ι ο) (B2 : Endpoint σ ι ο),
          Chain V [C2] B2 r s = (Except.error err, s1)) ∧
      (∀ (r2 : ι) (s2 : σ) (err : GoError) (s3 : σ),
        (∀ next, V next r s = next r2 s2) →
        (∀ next, C next r2 s2 = (Except.error err, s3)) →
        ∀ B2 : Endpoint σ ι ο, Chain V [C] B2 r s = (Except.error err, s3)) := by
  refine ⟨rfl, fun V C B r s => ⟨rfl, ?_, ?_⟩⟩
  · intro err s1 hV C2 B2
    exact hV (C2 B2)
  · intro r2 s2 err s3 hV hC B2
    show V (C B2) r s = _
    rw [hV (C B2), hC B2]

/-- The witness of C8, with spies for the three stages: request 0 fails validation and
the log shows validation alone; request 1 passes validation, fails conformance, and the
log shows no business call. -/
theorem pipeline_order_witness :
    Chain validateSpy [conformSpy] businessSpy 0 [] =
      (Except.error (GoError.classified ⟨common.ErrorKey.InvalidRequestBody, "invalid"⟩),
        ["validate"]) ∧
    Chain validateSpy [conformSpy] businessSpy 1 [] =
      (Except.error (GoError.classified ⟨common.ErrorKey.InvalidRequestBody, "odd"⟩),
        ["validate", "conform"]) :=
  have eps : Endpoints (List String) Nat Nat :=
    ⟨businessSpy, businessSpy, businessSpy, businessSpy, businessSpy⟩
  have mws : Middlewares (List String) Nat Nat :=
    ⟨validateSpy, conformSpy, validateSpy, conformSpy, validateSpy, conformSpy,
      validateSpy, conformSpy, validateSpy, conformSpy⟩
  ⟨((pipeline_order eps mws).2 validateSpy conformSpy businessSpy 0 []).2.1 _ _
      (fun _ => rfl) conformSpy businessSpy,
    ((pipeline_order eps mws).2 validateSpy conformSpy businessSpy 1 []).2.2 1 ["validate"] _ _
      (fun _ => rfl) (fun _ => rfl) businessSpy⟩

end transport

/-! ## Identifiers: parsing undoes printing -/

namespace uuid

set_option maxRecDepth 100000 in
theorem xtob_hex : ∀ b, b < 256 →
    xtob (hextable.getD (b >>> 4) 0) (hextable.getD (b &&& 15) 0) = (b, true) := by
  decide

theorem pair_cons (c : Nat) (s : Bytes) (x : Nat) : pair (c :: s) (x + 1) = pair s x := by
  simp [pair]

theorem pair_hex (b : Nat) (hb : b < 256) (s : Bytes) :
    pair (hextable.getD (b >>> 4) 0 :: hextable.getD (b &&& 15) 0 :: s) 0 = some b := by
  simp only [pair, List.getD_cons_zero, List.getD_cons_succ, xtob_hex b hb]

theorem Parse_String (u : UUID) (h : u.wf) : Parse u.String = some u := by
  obtain ⟨hl, hb⟩ := h
  match u, hl, hb with
  | [b0, b1, b2, b3, b4, b5, b6, b7, b8, b9, b10, b11, b12, b13, b14, b15], _, hb =>
    simp only [List.mem_cons, List.mem_singleton, forall_eq_or_imp, forall_eq, List.not_mem_nil, false_imp_iff, implies_true, and_true] at hb
    obtain ⟨h0, h1, h2, h3, h4, h5, h6, h7, h8, h9, h10, h11, h12, h13, h14, h15⟩ := hb
    have hs : UUID.String [b0, b1, b2, b3, b4, b5, b6, b7, b8, b9, b10, b11, b12, b13, b14, b15] =
        hextable.getD (b0 >>> 4) 0 :: hextable.getD (b0 &&& 15) 0 ::
        hextable.getD (b1 >>> 4) 0 :: hextable.getD (b1 &&& 15) 0 ::
        hextable.getD (b2 >>> 4) 0 :: hextable.getD (b2 &&& 15) 0 ::
        hextable.getD (b3 >>> 4) 0 :: hextable.getD (b3 &&& 15) 0 :: 45 ::
        hextable.getD (b4 >>> 4) 0 :: hextable.getD (b4 &&& 15) 0 ::
        hextable.getD (b5 >>> 4) 0 :: hextable.getD (b5 &&& 15) 0 :: 45 ::
        hextable.getD (b6 >>> 4) 0 :: hextable.getD (b6 &&& 15) 0 ::
        hextable.getD (b7 >>> 4) 0 :: hextable.getD (b7 &&& 15) 0 :: 45 ::
        hextable.getD (b8 >>> 4) 0 :: hextable.getD (b8 &&& 15) 0 ::
        hextable.getD (b9 >>> 4) 0 :: hextable.getD (b9 &&& 15) 0 :: 45 ::
        hextable.getD (b10 >>> 4) 0 :: hextable.getD (b10 &&& 15) 0 ::
        hextable.getD (b11 >>> 4) 0 :: hextable.getD (b11 &&& 15) 0 ::
        hextable.getD (b12 >>> 4) 0 :: hextable.getD (b12 &&& 15) 0 ::
        hextable.getD (b13 >>> 4) 0 :: hextable.getD (b13 &&& 15) 0 ::
        hextable.getD (b14 >>> 4) 0 :: hextable.getD (b14 &&& 15) 0 ::
        hextable.getD (b15 >>> 4) 0 :: hextable.getD (b15 &&& 15) 0 :: [] := rfl
    rw [hs]
    clear hs
    have hp : ∀ s : Bytes, s.length = 36 → Parse s = parseHyphenated s := by
      intro s h; simp [Parse, h]
    rw [hp]
    swap
    · rfl
    unfold parseHyphenated
    rw [if_neg (by simp)]
    simp only [offsets, List.mapM_cons, List.mapM_nil, pair_cons, pair_hex, h0, h1, h2, h3, h4,
      h5, h6, h7, h8, h9, h10, h11, h12, h13, h14, h15, Option.bind_eq_bind, Option.some_bind,
      Option.pure_def, bind_pure_comp, Option.map_some']
end uuid

/-! ## The scanner: the value `Decoder.Decode` reads is a well-formed JSON text -/

namespace json

open ScanCode ParseState

theorem good_of_plain (f : scanner → Nat → ScanCode × scanner) (s : scanner)
    (out : ScanCode × scanner) (hp : out.1.plain = true ∧ (out.1 ≠ scanError → out.2.Inv)) :
    Good f s out := by
  obtain ⟨hp, hi⟩ := hp
  refine ⟨fun h _ => hi h, fun e => ?_, fun e => ?_⟩
  · rw [e] at hp; exact absurd hp (by decide)
  · rcases e with e | e <;> rw [e] at hp <;> exact absurd hp (by decide)

theorem inv_step (s : scanner) (st : Step) (h : s.Inv) (h1 : st ≠ Step.stateEndTop)
    (h2 : st ≠ Step.stateBeginValueOrEmpty) : scanner.Inv { s with step := st } :=
  ⟨fun e => absurd e h1, fun e => absurd e h2, h.2.2⟩

theorem inv_setTop (s : scanner) (p : ParseState) (h : s.Inv) : (s.setTop p).Inv :=
  ⟨h.1, fun _ => by simp [scanner.setTop], h.2.2⟩

theorem inv_popParseState (s : scanner) (h : s.Inv) : s.popParseState.Inv := by
  simp only [scanner.popParseState]
  split_ifs
  · exact ⟨fun _ => rfl, fun e => by simp at e, h.2.2⟩
  · exact ⟨fun e => by simp at e, fun e => by simp at e, h.2.2⟩

theorem pushParseState_eq (s : scanner) (p : ParseState) (code : ScanCode) :
    s.pushParseState p code = (code, { s with parseState := p :: s.parseState }) ∨
    (s.pushParseState p code).1 = scanError := by
  unfold scanner.pushParseState
  by_cases hd : (p :: s.parseState).length ≤ maxNestingDepth
  · left; simp only [hd, if_true]
  · right; simp only [hd, if_false]; rfl

theorem plainly_stateBeginValue : Plainly stateBeginValue := by
  intro s c out h hout
  unfold stateBeginValue at hout
  rw [ite_eq_iff] at hout
  rcases hout with ⟨_, hout⟩ | ⟨_, hout⟩
  · subst hout; exact ⟨rfl, fun _ => h⟩
  rw [ite_eq_iff] at hout
  rcases hout with ⟨_, hout⟩ | ⟨_, hout⟩
  · rcases pushParseState_eq { s with step := Step.stateBeginStringOrEmpty } parseObjectKey
      scanBeginObject with e | e
    · rw [e] at hout; subst hout
      exact ⟨rfl, fun _ => ⟨fun e => by simp at e, fun e => by simp at e, h.2.2⟩⟩
    · rw [hout] at e
      exact ⟨by rw [e]; rfl, fun e2 => absurd e e2⟩
  rw [ite_eq_iff] at hout
  rcases hout with ⟨_, hout⟩ | ⟨_, hout⟩
  · rcases pushParseState_eq { s with step := Step.stateBeginValueOrEmpty } parseArrayValue
      scanBeginArray with e | e
    · rw [e] at hout; subst hout
      exact ⟨rfl, fun _ => ⟨fun e => by simp at e, fun _ => by simp, h.2.2⟩⟩
    · rw [hout] at e
      exact ⟨by rw [e]; rfl, fun e2 => absurd e e2⟩
  repeat' (rw [ite_eq_iff] at hout; rcases hout with ⟨_, hout⟩ | ⟨_, hout⟩)
  all_goals
    subst hout
    first
      | exact ⟨rfl, fun _ => inv_step s _ h (by decide) (by decide)⟩
      | exact ⟨rfl, fun e => absurd rfl e⟩

theorem plainly_stateBeginString : Plainly stateBeginString := by
  intro s c out h hout
  unfold stateBeginString at hout
  repeat' (rw [ite_eq_iff] at hout; rcases hout with ⟨_, hout⟩ | ⟨_, hout⟩)
  all_goals
    subst hout
    first
      | exact ⟨rfl, fun _ => h⟩
      | exact ⟨rfl, fun _ => inv_step s _ h (by decide) (by decide)⟩
      | exact ⟨rfl, fun e => absurd rfl e⟩

theorem plainly_stateInString : Plainly stateInString := by
  intro s c out h hout
  unfold stateInString at hout
  repeat' (rw [ite_eq_iff] at hout; rcases hout with ⟨_, hout⟩ | ⟨_, hout⟩)
  all_goals
    subst hout
    first
      | exact ⟨rfl, fun _ => h⟩
      | exact ⟨rfl, fun _ => inv_step s _ h (by decide) (by decide)⟩
      | exact ⟨rfl, fun e => absurd rfl e⟩

theorem plainly_stateInStringEsc : Plainly stateInStringEsc := by
  intro s c out h hout
  unfold stateInStringEsc at hout
  repeat' (rw [ite_eq_iff] at hout; rcases hout with ⟨_, hout⟩ | ⟨_, hout⟩)
  all_goals
    subst hout
    first
      | exact ⟨rfl, fun _ => inv_step s _ h (by decide) (by decide)⟩
      | exact ⟨rfl, fun e => absurd rfl e⟩

theorem plainly_stateHex (next : Step) (n1 : next ≠ Step.stateEndTop)
    (n2 : next ≠ Step.stateBeginValueOrEmpty) : Plainly (stateHex next) := by
  intro s c out h hout
  unfold stateHex at hout
  repeat' (rw [ite_eq_iff] at hout; rcases hout with ⟨_, hout⟩ | ⟨_, hout⟩)
  all_goals
    subst hout
    first
      | exact ⟨rfl, fun _ => inv_step s _ h n1 n2⟩
      | exact ⟨rfl, fun e => absurd rfl e⟩

theorem plainly_stateLit (want : Nat) (next : Step) (m : String)
    (n1 : next ≠ Step.stateEndTop) (n2 : next ≠ Step.stateBeginValueOrEmpty) :
    Plainly (stateLit want next m) := by
  intro s c out h hout
  unfold stateLit at hout
  repeat' (rw [ite_eq_iff] at hout; rcases hout with ⟨_, hout⟩ | ⟨_, hout⟩)
  all_goals
    subst hout
    first
      | exact ⟨rfl, fun _ => inv_step s _ h n1 n2⟩
      | exact ⟨rfl, fun e => absurd rfl e⟩

theorem plainly_stateNeg : Plainly stateNeg := by
  intro s c out h hout
  unfold stateNeg at hout
  repeat' (rw [ite_eq_iff] at hout; rcases hout with ⟨_, hout⟩ | ⟨_, hout⟩)
  all_goals
    subst hout
    first
      | exact ⟨rfl, fun _ => inv_step s _ h (by decide) (by decide)⟩
      | exact ⟨rfl, fun e => absurd rfl e⟩

theorem plainly_stateDot : Plainly stateDot := by
  intro s c out h hout
  unfold stateDot at hout
  repeat' (rw [ite_eq_iff] at hout; rcases hout with ⟨_, hout⟩ | ⟨_, hout⟩)
  all_goals
    subst hout
    first
      | exact ⟨rfl, fun _ => inv_step s _ h (by decide) (by decide)⟩
      | exact ⟨rfl, fun e => absurd rfl e⟩

theorem plainly_stateESign : Plainly stateESign := by
  intro s c out h hout
  unfold stateESign at hout
  repeat' (rw [ite_eq_iff] at hout; rcases hout with ⟨_, hout⟩ | ⟨_, hout⟩)
  all_goals
    subst hout
    first
      | exact ⟨rfl, fun _ => inv_step s _ h (by decide) (by decide)⟩
      | exact ⟨rfl, fun e => absurd rfl e⟩

theorem plainly_stateE : Plainly stateE := by
  intro s c out h hout
  unfold stateE at hout
  rw [ite_eq_iff] at hout
  rcases hout with ⟨_, hout⟩ | ⟨_, hout⟩
  · subst hout; exact ⟨rfl, fun _ => inv_step s _ h (by decide) (by decide)⟩
  · exact plainly_stateESign s c out h hout


theorem stateEndTop_fst (s : scanner) (c : Nat) : (stateEndTop s c).1 = scanEnd := by
  unfold stateEndTop
  split_ifs <;> rfl

theorem good_of_close (f : scanner → Nat → ScanCode × scanner) (s s0 : scanner)
    (code : ScanCode) (h : s0.Inv) (hc : code ≠ scanEnd) :
    Good f s (code, s0.popParseState) :=
  ⟨fun _ _ => inv_popParseState s0 h, fun e => absurd e hc, fun _ => ⟨s0, rfl⟩⟩

theorem stateEndValue_nil (s : scanner) (c : Nat) (h : s.parseState = []) :
    (stateEndValue s c).1 = scanEnd ∧ (stateEndValue s c).2.endTop = true := by
  obtain ⟨step, endTop, ps, err⟩ := s
  simp only at h
  subst h
  simp only [stateEndValue, stateEndTop]
  split_ifs <;> exact ⟨rfl, rfl⟩

theorem good_stateEndValue (s : scanner) (c : Nat) (out : ScanCode × scanner) (h : s.Inv)
    (hout : stateEndValue s c = out) :
    Good stateEndValue s out ∧ (out.1 = scanEnd → s.parseState = []) := by
  obtain ⟨step, endTop, ps, err⟩ := s
  rcases ps with _ | ⟨p, ps⟩
  · refine ⟨⟨fun _ h2 => ?_, fun _ => stateEndValue_nil _ _ rfl, fun e => ?_⟩, fun _ => rfl⟩
    · rw [← hout] at h2; exact absurd (stateEndValue_nil _ _ rfl).1 h2
    · rw [← hout, (stateEndValue_nil _ _ rfl).1] at e
      rcases e with e | e <;> exact absurd e (by decide)
  · cases p <;> simp only [stateEndValue] at hout <;>
      repeat' (rw [ite_eq_iff] at hout; rcases hout with ⟨_, hout⟩ | ⟨_, hout⟩)
    all_goals
      subst hout
      refine ⟨?_, fun e => by cases e⟩
      first
        | exact good_of_close _ _ _ _ h (by decide)
        | exact good_of_plain _ _ _ ⟨rfl, fun _ => inv_step _ _ h (by decide) (by decide)⟩
        | exact good_of_plain _ _ _
            ⟨rfl, fun _ => inv_step _ _ (inv_setTop _ _ h) (by decide) (by decide)⟩
        | exact good_of_plain _ _ _ ⟨rfl, fun e => absurd rfl e⟩

theorem falls_state0 : Falls state0 := by
  intro s c out h hout
  unfold state0 at hout
  rw [ite_eq_iff] at hout
  rcases hout with ⟨_, hout⟩ | ⟨_, hout⟩
  · subst hout; exact Or.inl ⟨rfl, fun _ => inv_step s _ h (by decide) (by decide)⟩
  rw [ite_eq_iff] at hout
  rcases hout with ⟨_, hout⟩ | ⟨_, hout⟩
  · subst hout; exact Or.inl ⟨rfl, fun _ => inv_step s _ h (by decide) (by decide)⟩
  · exact Or.inr hout

theorem falls_state1 : Falls state1 := by
  intro s c out h hout
  unfold state1 at hout
  rw [ite_eq_iff] at hout
  rcases hout with ⟨_, hout⟩ | ⟨_, hout⟩
  · subst hout; exact Or.inl ⟨rfl, fun _ => inv_step s _ h (by decide) (by decide)⟩
  · exact falls_state0 s c out h hout

theorem falls_stateDot0 : Falls stateDot0 := by
  intro s c out h hout
  unfold stateDot0 at hout
  rw [ite_eq_iff] at hout
  rcases hout with ⟨_, hout⟩ | ⟨_, hout⟩
  · subst hout; exact Or.inl ⟨rfl, fun _ => h⟩
  rw [ite_eq_iff] at hout
  rcases hout with ⟨_, hout⟩ | ⟨_, hout⟩
  · subst hout; exact Or.inl ⟨rfl, fun _ => inv_step s _ h (by decide) (by decide)⟩
  · exact Or.inr hout

theorem falls_stateE0 : Falls stateE0 := by
  intro s c out h hout
  unfold stateE0 at hout
  rw [ite_eq_iff] at hout
  rcases hout with ⟨_, hout⟩ | ⟨_, hout⟩
  · subst hout; exact Or.inl ⟨rfl, fun _ => h⟩
  · exact Or.inr hout

theorem state0_space (s : scanner) : state0 s 32 = stateEndValue s 32 := by
  simp [state0]

theorem state1_space (s : scanner) : state1 s 32 = stateEndValue s 32 := by
  simp [state1, state0, isDigit]

theorem stateDot0_space (s : scanner) : stateDot0 s 32 = stateEndValue s 32 := by
  simp [stateDot0, isDigit]

theorem stateE0_space (s : scanner) : stateE0 s 32 = stateEndValue s 32 := by
  simp [stateE0, isDigit]

theorem good_congr (f g : scanner → Nat → ScanCode × scanner) (s : scanner)
    (out : ScanCode × scanner) (h32 : g s 32 = f s 32) (hg : Good f s out) : Good g s out :=
  ⟨hg.1, fun e => by rw [h32]; exact hg.2.1 e, hg.2.2⟩

theorem good_of_falls (f : scanner → Nat → ScanCode × scanner) (s : scanner) (c : Nat)
    (out : ScanCode × scanner) (h : s.Inv)
    (hd : (out.1.plain = true ∧ (out.1 ≠ scanError → out.2.Inv)) ∨ stateEndValue s c = out)
    (hsp : f s 32 = stateEndValue s 32) : Good f s out := by
  rcases hd with hp | he
  · exact good_of_plain _ _ _ hp
  · exact good_congr _ _ _ _ hsp (good_stateEndValue s c out h he).1

theorem good_stateBeginValueOrEmpty (s : scanner) (c : Nat) (out : ScanCode × scanner)
    (h : s.Inv) (hne : s.parseState ≠ []) (hout : stateBeginValueOrEmpty s c = out) :
    Good scanner.run s out := by
  unfold stateBeginValueOrEmpty at hout
  rw [ite_eq_iff] at hout
  rcases hout with ⟨_, hout⟩ | ⟨_, hout⟩
  · subst hout; exact good_of_plain _ _ _ ⟨rfl, fun _ => h⟩
  rw [ite_eq_iff] at hout
  rcases hout with ⟨_, hout⟩ | ⟨_, hout⟩
  · obtain ⟨⟨g1, _, g3⟩, g4⟩ := good_stateEndValue s c out h hout
    exact ⟨g1, fun e => absurd (g4 e) hne, g3⟩
  · exact good_of_plain _ _ _ (plainly_stateBeginValue s c out h hout)

theorem good_stateBeginStringOrEmpty (s : scanner) (c : Nat) (out : ScanCode × scanner)
    (h : s.Inv) (hout : stateBeginStringOrEmpty s c = out) :
    Good scanner.run s out := by
  unfold stateBeginStringOrEmpty at hout
  rw [ite_eq_iff] at hout
  rcases hout with ⟨_, hout⟩ | ⟨_, hout⟩
  · subst hout; exact good_of_plain _ _ _ ⟨rfl, fun _ => h⟩
  rw [ite_eq_iff] at hout
  rcases hout with ⟨_, hout⟩ | ⟨_, hout⟩
  · obtain ⟨⟨g1, _, g3⟩, g4⟩ := good_stateEndValue _ c out (inv_setTop s _ h) hout
    exact ⟨g1, fun e => absurd (g4 e) (by simp [scanner.setTop]), g3⟩
  · exact good_of_plain _ _ _ (plainly_stateBeginString s c out h hout)

theorem eof_of_endTop (s : scanner) (h : s.Inv) (he : s.endTop = true) :
    s.eof.1 = scanEnd := by
  unfold scanner.eof
  rw [h.2.2, he]
  rfl

theorem eof_of_run (s : scanner) (h : s.Inv) (he : (s.run 32).2.endTop = true) :
    s.eof.1 = scanEnd := by
  unfold scanner.eof
  rw [h.2.2]
  by_cases ht : s.endTop = true
  · rw [ht]; rfl
  · simp only [Option.isSome_none, Bool.false_eq_true, if_false, ht, he, if_true]

/-- What one step of the scanner gives, from a scanner in `Inv`. -/
theorem run_spec (s : scanner) (c : Nat) (out : ScanCode × scanner) (h : s.Inv)
    (hout : s.run c = out) :
    (out.1 ≠ scanError → out.1 ≠ scanEnd → out.2.Inv) ∧
    (out.1 = scanEnd → s.eof.1 = scanEnd) ∧
    (out.1 = scanEndObject ∨ out.1 = scanEndArray → ∃ s1 : scanner, out.2 = s1.popParseState) := by
  have key : Good scanner.run s out →
      (out.1 ≠ scanError → out.1 ≠ scanEnd → out.2.Inv) ∧
      (out.1 = scanEnd → s.eof.1 = scanEnd) ∧
      (out.1 = scanEndObject ∨ out.1 = scanEndArray →
        ∃ s1 : scanner, out.2 = s1.popParseState) :=
    fun g => ⟨g.1, fun e => eof_of_run s h (g.2.1 e).2, g.2.2⟩
  cases hs : s.step <;> simp only [scanner.run, hs] at hout
  case stateBeginValueOrEmpty =>
    exact key (good_stateBeginValueOrEmpty s c out h (h.2.1 hs) hout)
  case stateBeginValue =>
    exact key (good_of_plain _ _ _ (plainly_stateBeginValue s c out h hout))
  case stateBeginStringOrEmpty =>
    exact key (good_stateBeginStringOrEmpty s c out h hout)
  case stateBeginString =>
    exact key (good_of_plain _ _ _ (plainly_stateBeginString s c out h hout))
  case stateEndValue =>
    exact key (good_congr _ _ _ _ (by simp only [scanner.run, hs])
      (good_stateEndValue s c out h hout).1)
  case stateEndTop =>
    have e : out.1 = scanEnd := by rw [← hout]; exact stateEndTop_fst s c
    refine ⟨fun _ h2 => absurd e h2, fun _ => eof_of_endTop s h (h.1 hs), fun e2 => ?_⟩
    rw [e] at e2
    rcases e2 with e2 | e2 <;> exact absurd e2 (by decide)
  case stateInString =>
    exact key (good_of_plain _ _ _ (plainly_stateInString s c out h hout))
  case stateInStringEsc =>
    exact key (good_of_plain _ _ _ (plainly_stateInStringEsc s c out h hout))
  case stateNeg =>
    exact key (good_of_plain _ _ _ (plainly_stateNeg s c out h hout))
  case state1 =>
    exact key (good_of_falls _ s c out h (falls_state1 s c out h hout)
      (by simp only [scanner.run, hs]; exact state1_space s))
  case state0 =>
    exact key (good_of_falls _ s c out h (falls_state0 s c out h hout)
      (by simp only [scanner.run, hs]; exact state0_space s))
  case stateDot =>
    exact key (good_of_plain _ _ _ (plainly_stateDot s c out h hout))
  case stateDot0 =>
    exact key (good_of_falls _ s c out h (falls_stateDot0 s c out h hout)
      (by simp only [scanner.run, hs]; exact stateDot0_space s))
  case stateE =>
    exact key (good_of_plain _ _ _ (plainly_stateE s c out h hout))
  case stateESign =>
    exact key (good_of_plain _ _ _ (plainly_stateESign s c out h hout))
  case stateE0 =>
    exact key (good_of_falls _ s c out h (falls_stateE0 s c out h hout)
      (by simp only [scanner.run, hs]; exact stateE0_space s))
  case stateError =>
    subst hout
    refine ⟨fun e => absurd rfl e, fun e => ?_, fun e => ?_⟩
    · cases e
    · rcases e with e | e <;> cases e
  all_goals
    first
      | exact key (good_of_plain _ _ _
          (plainly_stateHex _ (by decide) (by decide) s c out h hout))
      | exact key (good_of_plain _ _ _
          (plainly_stateLit _ _ _ (by decide) (by decide) s c out h hout))


theorem checkValidFrom_nil (s : scanner) (h : s.eof.1 = scanEnd) :
    checkValidFrom s [] = none := by
  unfold checkValidFrom
  generalize s.eof = r at h
  obtain ⟨code, s1⟩ := r
  simp only at h
  subst h
  rfl

theorem checkValidFrom_cons (s s1 : scanner) (c : Nat) (code : ScanCode) (data : Bytes)
    (h : s.run c = (code, s1)) (hc : code ≠ scanError) :
    checkValidFrom s (c :: data) = checkValidFrom s1 data := by
  rw [checkValidFrom, h]
  cases code <;> first | rfl | exact absurd rfl hc

theorem popParseState_endTop (s : scanner) (h : s.popParseState.parseState = []) :
    s.popParseState.endTop = true := by
  simp only [scanner.popParseState] at h ⊢
  split_ifs with h0
  · rfl
  · rw [if_neg h0] at h
    simp only at h
    rw [h] at h0
    exact absurd rfl h0

theorem stateEndValue_popParseState (s : scanner)
    (h : (stateEndValue s.popParseState 32).1 ≠ scanEnd) :
    (stateEndValue s.popParseState 32).2 = s.popParseState := by
  have hne : s.popParseState.parseState ≠ [] :=
    fun e => h (stateEndValue_nil _ _ e).1
  have hst : s.popParseState.step = Step.stateEndValue := by
    simp only [scanner.popParseState] at hne ⊢
    split_ifs with h0
    · rw [if_pos h0] at hne
      simp only at hne
      exact absurd (List.length_eq_zero.mp h0) hne
    · rfl
  generalize s.popParseState = s1 at hne hst ⊢
  obtain ⟨step, endTop, ps, err⟩ := s1
  simp only at hst
  subst hst
  rcases ps with _ | ⟨p, ps⟩
  · exact absurd rfl hne
  · rfl

/-- When `readValueFrom` finds the end of a value, the bytes up to that end pass the loop
of `checkValid`. -/
theorem readValueFrom_valid (buf : Bytes) :
    ∀ (rest : Bytes) (s : scanner) (scanp n : Nat), s.Inv →
      readValueFrom buf s rest scanp = Except.ok n →
      ∃ k, n = scanp + k ∧ k ≤ rest.length ∧ checkValidFrom s (rest.take k) = none := by
  intro rest
  induction rest with
  | nil =>
    intro s scanp n h hr
    unfold readValueFrom at hr
    by_cases he : (s.run 32).1 = scanEnd
    · rw [if_pos he] at hr
      cases hr
      exact ⟨0, rfl, Nat.le_refl _, checkValidFrom_nil s ((run_spec s 32 _ h rfl).2.1 he)⟩
    · rw [if_neg he] at hr
      split_ifs at hr
  | cons c rest ih =>
    intro s scanp n h hr
    rw [readValueFrom] at hr
    generalize hout : s.run c = out at hr
    obtain ⟨code, s1⟩ := out
    obtain ⟨g1, g2, g3⟩ := run_spec s c _ h hout
    have step : ∀ k, checkValidFrom s1 (rest.take k) = none → code ≠ scanError →
        checkValidFrom s (List.take (k + 1) (c :: rest)) = none := by
      intro k hk hc
      rw [List.take_succ_cons, checkValidFrom_cons s s1 c code _ hout hc]
      exact hk
    have closing : (code = scanEndObject ∨ code = scanEndArray) →
        (if (stateEndValue s1 32).1 = scanEnd then Except.ok (scanp + 1)
          else readValueFrom buf (stateEndValue s1 32).2 rest (scanp + 1)) = Except.ok n →
        ∃ k, n = scanp + k ∧ k ≤ (c :: rest).length ∧
          checkValidFrom s (List.take k (c :: rest)) = none := by
      intro hc hr
      have hne : code ≠ scanError := by rcases hc with e | e <;> rw [e] <;> decide
      have hnd : code ≠ scanEnd := by rcases hc with e | e <;> rw [e] <;> decide
      have hi : s1.Inv := g1 hne hnd
      obtain ⟨s0, hs0⟩ := g3 hc
      simp only at hs0
      by_cases he : (stateEndValue s1 32).1 = scanEnd
      · rw [if_pos he] at hr
        cases hr
        refine ⟨1, rfl, by simp, ?_⟩
        have hnil : s1.parseState = [] := (good_stateEndValue s1 32 _ hi rfl).2 he
        have : checkValidFrom s1 (rest.take 0) = none :=
          checkValidFrom_nil s1 (eof_of_endTop s1 hi
            (by rw [hs0] at hnil ⊢; exact popParseState_endTop s0 hnil))
        exact step 0 this hne
      · rw [if_neg he] at hr
        have e2 : (stateEndValue s1 32).2 = s1 := by
          rw [hs0] at he ⊢
          exact stateEndValue_popParseState s0 he
        rw [e2] at hr
        obtain ⟨k, hk1, hk2, hk3⟩ := ih s1 (scanp + 1) n hi hr
        exact ⟨k + 1, by omega, by simp; omega, step k hk3 hne⟩
    have other : code ≠ scanError → code ≠ scanEnd →
        readValueFrom buf s1 rest (scanp + 1) = Except.ok n →
        ∃ k, n = scanp + k ∧ k ≤ (c :: rest).length ∧
          checkValidFrom s (List.take k (c :: rest)) = none := by
      intro hne hnd hr
      obtain ⟨k, hk1, hk2, hk3⟩ := ih s1 (scanp + 1) n (g1 hne hnd) hr
      exact ⟨k + 1, by omega, by simp; omega, step k hk3 hne⟩
    cases code <;> simp only at hr
    case scanEnd =>
      cases hr
      exact ⟨0, rfl, Nat.zero_le _, checkValidFrom_nil s (g2 rfl)⟩
    case scanEndObject => exact closing (Or.inl rfl) hr
    case scanEndArray => exact closing (Or.inr rfl) hr
    case scanError => cases hr
    all_goals exact other (by decide) (by decide) hr

theorem inv_reset : scanner.reset.Inv :=
  ⟨fun e => (by cases e), fun e => (by cases e), rfl⟩

/-- When `readValue` succeeds with length `n`, the first `n` bytes of the body are one
well-formed JSON text. -/
theorem readValue_valid (body : Bytes) (n : Nat) (h : readValue body = Except.ok n) :
    n ≤ body.length ∧ Valid (body.take n) = true := by
  obtain ⟨k, hk1, hk2, hk3⟩ := readValueFrom_valid body body scanner.reset 0 n inv_reset h
  have e : n = k := by omega
  subst e
  exact ⟨hk2, by simp [Valid, checkValid, hk3]⟩

end json

/-! ## The decoders -/

namespace uuid

theorem String_length (u : UUID) (h : u.length = 16) : u.String.length = 36 := by
  match u, h with
  | [b0, b1, b2, b3, b4, b5, b6, b7, b8, b9, b10, b11, b12, b13, b14, b15], _ => rfl

theorem canonical_length (s : Bytes) (h : canonical s) : s.length = 36 := by
  obtain ⟨u, hu, rfl⟩ := h
  exact String_length u hu.1

end uuid

namespace transport

open common http

/-- C3, as stated, fails: the 32 bare hex digits `123e4567e89b12d3a456426614174000` are
not the canonical text encoding of any identifier (that has 36 bytes), yet with this id
path variable both decoders return a request and no error. -/
theorem decode_id_noncanonical_accepted :
    ¬ uuid.canonical (ascii "123e4567e89b12d3a456426614174000") ∧
    decodeHTTPGetRequest ⟨[("id", ascii "123e4567e89b12d3a456426614174000")], [], []⟩ =
      Except.ok ⟨[18, 62, 69, 103, 232, 155, 18, 211, 164, 86, 66, 102, 20, 23, 64, 0]⟩ ∧
    decodeHTTPDeleteRequest ⟨[("id", ascii "123e4567e89b12d3a456426614174000")], [], []⟩ =
      Except.ok ⟨[18, 62, 69, 103, 232, 155, 18, 211, 164, 86, 66, 102, 20, 23, 64, 0]⟩ := by
  refine ⟨fun h => ?_, rfl, rfl⟩
  have := uuid.canonical_length _ h
  revert this
  decide

/-- C3, amended: for every request whose id path variable is missing or is a string that
`uuid.Parse` rejects, both decoders return no request and the classified error with key
InvalidID and message `invalid id`, which `err2code` maps to 400. -/
theorem decode_id_rejected (r : Request)
    (h : r.Vars.lookup "id" = none ∨
      ∃ s, r.Vars.lookup "id" = some s ∧ uuid.Parse s = none) :
    decodeHTTPGetRequest r = Except.error ⟨ErrorKey.InvalidID, "invalid id"⟩ ∧
    decodeHTTPDeleteRequest r = Except.error ⟨ErrorKey.InvalidID, "invalid id"⟩ ∧
    err2code ⟨ErrorKey.InvalidID, "invalid id"⟩ = 400 := by
  refine ⟨?_, ?_, rfl⟩
  · rcases h with h | ⟨s, h, hp⟩
    · simp [decodeHTTPGetRequest, h, NewError]
    · simp [decodeHTTPGetRequest, h, hp, NewError]
  · rcases h with h | ⟨s, h, hp⟩
    · simp [decodeHTTPDeleteRequest, h, NewError]
    · simp [decodeHTTPDeleteRequest, h, hp, NewError]

/-- The witness of amended C3: the id `not-a-uuid`. -/
theorem decode_id_rejected_witness :
    decodeHTTPGetRequest ⟨[("id", ascii "not-a-uuid")], [], []⟩ =
      Except.error ⟨ErrorKey.InvalidID, "invalid id"⟩ ∧
    decodeHTTPDeleteRequest ⟨[("id", ascii "not-a-uuid")], [], []⟩ =
      Except.error ⟨ErrorKey.InvalidID, "invalid id"⟩ ∧
    err2code ⟨ErrorKey.InvalidID, "invalid id"⟩ = 400 :=
  decode_id_rejected ⟨[("id", ascii "not-a-uuid")], [], []⟩
    (Or.inr ⟨ascii "not-a-uuid", rfl, by decide⟩)

/-- C9: for every identifier `u`, a request whose id path variable is the canonical text
encoding of `u` is decoded, by the Get and by the Delete decoder, without error into the
request whose ID is `u`. -/
theorem decode_id_roundtrip (u : uuid.UUID) (hu : u.wf) (r : Request)
    (hr : r.Vars.lookup "id" = some u.String) :
    decodeHTTPGetRequest r = Except.ok ⟨u⟩ ∧ decodeHTTPDeleteRequest r = Except.ok ⟨u⟩ := by
  constructor
  · simp [decodeHTTPGetRequest, hr, uuid.Parse_String u hu]
  · simp [decodeHTTPDeleteRequest, hr, uuid.Parse_String u hu]

/-- The witness of C9: the identifier 123e4567-e89b-12d3-a456-426614174000. -/
theorem decode_id_roundtrip_witness :
    decodeHTTPGetRequest ⟨[("id", ascii "123e4567-e89b-12d3-a456-426614174000")], [], []⟩ =
      Except.ok ⟨[18, 62, 69, 103, 232, 155, 18, 211, 164, 86, 66, 102, 20, 23, 64, 0]⟩ ∧
    decodeHTTPDeleteRequest
        ⟨[("id", ascii "123e4567-e89b-12d3-a456-426614174000")], [], []⟩ =
      Except.ok ⟨[18, 62, 69, 103, 232, 155, 18, 211, 164, 86, 66, 102, 20, 23, 64, 0]⟩ :=
  decode_id_roundtrip [18, 62, 69, 103, 232, 155, 18, 211, 164, 86, 66, 102, 20, 23, 64, 0]
    (by decide) ⟨[("id", ascii "123e4567-e89b-12d3-a456-426614174000")], [], []⟩ (by decide)

/-- C4, as stated, fails: the body made of the empty object followed by the byte `x`
(bytes 123, 125, 120) is not well-formed JSON, yet both decoders return a request and no
error: the decoder reads the first value and leaves what follows it unread. -/
theorem decode_body_trailing_accepted :
    json.Valid [123, 125, 120] = false ∧
    decodeHTTPCreateRequest types.unmarshalCreate ⟨[], [], [123, 125, 120]⟩ =
      Except.ok ⟨[123, 125]⟩ ∧
    decodeHTTPUpdateRequest types.unmarshalUpdate ⟨[], [], [123, 125, 120]⟩ =
      Except.ok ⟨[123, 125]⟩ :=
  ⟨rfl, rfl, rfl⟩

/-- C4, amended: for every request body no initial segment of which is a well-formed JSON
text (the empty body among them), whatever the request types are, both decoders return
no request and the classified error with key InvalidRequestBody and message
`invalid request body`, which `err2code` maps to 400. -/
theorem decode_body_rejected {α β : Type} (ua : Bytes → Except GoError α)
    (ub : Bytes → Except GoError β) (r : Request)
    (h : ∀ n, json.Valid (r.Body.take n) = false) :
    decodeHTTPCreateRequest ua r =
      Except.error ⟨ErrorKey.InvalidRequestBody, "invalid request body"⟩ ∧
    decodeHTTPUpdateRequest ub r =
      Except.error ⟨ErrorKey.InvalidRequestBody, "invalid request body"⟩ ∧
    err2code ⟨ErrorKey.InvalidRequestBody, "invalid request body"⟩ = 400 := by
  have hread : ∃ e, json.readValue r.Body = Except.error e := by
    cases hv : json.readValue r.Body with
    | error e => exact ⟨e, rfl⟩
    | ok n =>
      have := (json.readValue_valid r.Body n hv).2
      rw [h n] at this
      exact absurd this (by decide)
  obtain ⟨e, he⟩ := hread
  refine ⟨?_, ?_, rfl⟩
  · simp [decodeHTTPCreateRequest, json.Decode, he, NewError]
  · simp [decodeHTTPUpdateRequest, json.Decode, he, NewError]

/-- The witness of amended C4: the empty body. -/
theorem decode_body_rejected_witness :
    decodeHTTPCreateRequest types.unmarshalCreate ⟨[], [], []⟩ =
      Except.error ⟨ErrorKey.InvalidRequestBody, "invalid request body"⟩ ∧
    decodeHTTPUpdateRequest types.unmarshalUpdate ⟨[], [], []⟩ =
      Except.error ⟨ErrorKey.InvalidRequestBody, "invalid request body"⟩ ∧
    err2code ⟨ErrorKey.InvalidRequestBody, "invalid request body"⟩ = 400 :=
  decode_body_rejected types.unmarshalCreate types.unmarshalUpdate ⟨[], [], []⟩
    (fun n => by rw [List.take_nil]; rfl)

end transport
